import Mathlib

/-!
Verification of the colorofit-api nutrition/goal core.

This file gives a shallow embedding, in Lean 4, of the pure computational
core of the repository:

* the Energy Goal Calculator (`users/serializers.py`,
  `TargetDetailSerializer.get_tdee` / `get_daily_deficit` /
  `get_calorie_target` / `get_days_left`);
* the nutrient field mapper (`food/services/spoonacular_service.py`,
  `SpoonacularService._extract_nutrition_data`, and `food/views.py`,
  `extract_nutrition_data`);
* the ingredient line parser (`food/services/ingredient_parser.py`,
  `IngredientParser.normalize_text` / `_normalize_line` /
  `_split_by_delimiters`);
* the meal type resolution helpers (`food/views.py`, `resolve_meal_type`
  and `group_food_items_by_meal_type`).

Python floats are modelled as exact rationals (`ℚ`), Python dates as
absolute day numbers (`ℤ`), missing model fields as `Option`, and Python
exceptions as `Except`.  Python's built-in `round` (banker's rounding,
round-half-to-even) is modelled by `pyRound` below.
-/

/-- Python's `round(x)` on a real value: round half to even. -/
def pyRound (q : ℚ) : ℤ :=
  let f := ⌊q⌋
  let r := q - f
  if r < 1/2 then f
  else if 1/2 < r then f + 1
  else if f % 2 = 0 then f else f + 1

theorem pyRound_int (n : ℤ) : pyRound ((n : ℤ) : ℚ) = n := by
  unfold pyRound
  rw [Int.floor_intCast]
  norm_num

theorem pyRound_down (q : ℚ) (n : ℤ) (h1 : (n : ℚ) ≤ q) (h2 : q < (n : ℚ) + 1/2) :
    pyRound q = n := by
  have hf : ⌊q⌋ = n := Int.floor_eq_iff.mpr ⟨h1, by linarith⟩
  unfold pyRound
  rw [hf]
  have hr : q - (n : ℚ) < 1/2 := by linarith
  rw [if_pos hr]

theorem pyRound_up (q : ℚ) (n : ℤ) (h1 : (n : ℚ) + 1/2 < q) (h2 : q < (n : ℚ) + 1) :
    pyRound q = n + 1 := by
  have hf : ⌊q⌋ = n := Int.floor_eq_iff.mpr ⟨by linarith, h2⟩
  unfold pyRound
  rw [hf]
  have hr1 : ¬ (q - (n : ℚ) < 1/2) := by push_neg; linarith
  have hr2 : 1/2 < q - (n : ℚ) := by linarith
  rw [if_neg hr1, if_pos hr2]

/-! ## Energy Goal Calculator (`users/serializers.py`, `TargetDetailSerializer`)

The `User` model fields used by the calculator are all nullable
(`null=True`), so each is an `Option`.  Python's `all([...])` tests
truthiness: `None`, numeric `0` and the empty string are falsy, while a
`date` object is always truthy (so for `aimed_date` truthiness is just
presence). -/

/-- Truthiness of a nullable numeric field (`None` and `0` are falsy). -/
def truthyQ : Option ℚ → Bool
  | none => false
  | some q => q != 0

/-- Truthiness of a nullable string field (`None` and `""` are falsy). -/
def truthyStr : Option String → Bool
  | none => false
  | some s => s != ""

/-- The profile fields of the `User` model read by `TargetDetailSerializer`.
Weights/height in their stored units, `aimed_date` as an absolute day
number. -/
structure UserObj where
  weight : Option ℚ
  height : Option ℚ
  age : Option ℚ
  gender : Option String
  life_style : Option String
  aimed_weight : Option ℚ
  aimed_date : Option ℤ

/-- `activity_factors.get(obj.life_style, 1.2)` with the dict literal from
`get_tdee`. -/
def activity_factors_get : Option String → ℚ
  | some "Sedentary" => 1.2
  | some "Lightly active" => 1.375
  | some "Moderately active" => 1.55
  | some "Active" => 1.725
  | some "Very active" => 1.9
  | _ => 1.2

/-- `TargetDetailSerializer.get_tdee` (users/serializers.py lines 62-85).
The `float(...)` conversions cannot fail on the numeric model fields, so the
`except (ValueError, TypeError)` branch is unreachable in the model. -/
def get_tdee (obj : UserObj) : ℤ :=
  if !(truthyQ obj.weight && truthyQ obj.height && truthyQ obj.age
        && truthyStr obj.gender) then 0
  else
    let s : ℚ := if obj.gender == some "male" then 5 else -161
    let bmr : ℚ := 10 * obj.weight.getD 0 + 6.25 * obj.height.getD 0
        - 5 * obj.age.getD 0 + s
    let activity_factor : ℚ := activity_factors_get obj.life_style
    pyRound (bmr * activity_factor)

/-- `TargetDetailSerializer.get_daily_deficit` (users/serializers.py lines
87-101); `today` is `date.today()` as a day number. -/
def get_daily_deficit (obj : UserObj) (today : ℤ) : ℤ :=
  if !(truthyQ obj.weight && truthyQ obj.aimed_weight
        && obj.aimed_date.isSome) then 0
  else
    let weight_loss_goal : ℚ := obj.weight.getD 0 - obj.aimed_weight.getD 0
    let days_left : ℤ := max (obj.aimed_date.getD 0 - today) 1
    let total_deficit : ℚ := weight_loss_goal * 7700
    pyRound (total_deficit / (days_left : ℚ))

/-- `TargetDetailSerializer.get_calorie_target` (users/serializers.py lines
103-114). -/
def get_calorie_target (obj : UserObj) (today : ℤ) : ℤ :=
  let tdee := get_tdee obj
  let daily_deficit := get_daily_deficit obj today
  if tdee = 0 then 0
  else max (pyRound ((tdee - daily_deficit : ℤ) : ℚ)) 1200

/-- `TargetDetailSerializer.get_days_left` (users/serializers.py lines
116-119). -/
def get_days_left (obj : UserObj) (today : ℤ) : ℤ :=
  match obj.aimed_date with
  | none => 0
  | some d => max (d - today) 0

/-! Spec-side definitions for the refinement claim about `get_tdee`,
written from the specification's words (Mifflin-St Jeor BMR and the fixed
activity table with default 1.2). -/

/-- Spec: BMR = 10·weightKg + 6.25·heightCm − 5·ageYears + (5 if male else
−161). -/
def bmrSpec (w h a : ℚ) (gender : String) : ℚ :=
  10 * w + 6.25 * h - 5 * a + (if gender = "male" then 5 else -161)

/-- Spec: the fixed activity table keyed by activity level. -/
def activityTableSpec : List (String × ℚ) :=
  [("Sedentary", 1.2), ("Lightly active", 1.375), ("Moderately active", 1.55),
   ("Active", 1.725), ("Very active", 1.9)]

/-- Spec: activity factor looked up from the fixed table, defaulting to 1.2
when the activity level is missing or unrecognized. -/
def activityFactorSpec : Option String → ℚ
  | none => 1.2
  | some s => ((activityTableSpec.find? (fun p => p.1 == s)).map Prod.snd).getD 1.2

theorem activity_factors_get_eq_spec (ls : Option String) :
    activity_factors_get ls = activityFactorSpec ls := by
  match ls with
  | none => rfl
  | some s =>
    by_cases h1 : s = "Sedentary"
    · subst h1; rfl
    by_cases h2 : s = "Lightly active"
    · subst h2; rfl
    by_cases h3 : s = "Moderately active"
    · subst h3; rfl
    by_cases h4 : s = "Active"
    · subst h4; rfl
    by_cases h5 : s = "Very active"
    · subst h5; rfl
    simp only [activity_factors_get, activityFactorSpec, activityTableSpec,
      List.find?]
    rw [show (("Sedentary" : String) == s) = false by simp [Ne.symm h1],
      show (("Lightly active" : String) == s) = false by simp [Ne.symm h2],
      show (("Moderately active" : String) == s) = false by simp [Ne.symm h3],
      show (("Active" : String) == s) = false by simp [Ne.symm h4],
      show (("Very active" : String) == s) = false by simp [Ne.symm h5]]
    simp [h1, h2, h3, h4, h5]

/-- Claim C1: for every user profile in which weight, height, age and gender
are all present (truthy: non-null and nonzero/nonempty), `get_tdee` returns
`round(BMR × factor)` with BMR = 10·weight + 6.25·height − 5·age + (5 if
gender is "male", else −161), and factor taken from the fixed activity
table, defaulting to 1.2 when the activity level is missing or unrecognized
(never an error). -/
theorem tdee_matches_spec (obj : UserObj) (w h a : ℚ) (g : String)
    (hw : obj.weight = some w) (hw0 : w ≠ 0)
    (hh : obj.height = some h) (hh0 : h ≠ 0)
    (ha : obj.age = some a) (ha0 : a ≠ 0)
    (hg : obj.gender = some g) (hg0 : g ≠ "") :
    get_tdee obj = pyRound (bmrSpec w h a g * activityFactorSpec obj.life_style) := by
  unfold get_tdee
  rw [hw, hh, ha, hg]
  have hc : (truthyQ (some w) && truthyQ (some h) && truthyQ (some a)
      && truthyStr (some g)) = true := by
    simp [truthyQ, truthyStr, hw0, hh0, ha0, hg0]
  rw [hc]
  simp only [Bool.not_true, Option.getD_some, activity_factors_get_eq_spec,
    bmrSpec]
  rw [if_neg (by simp)]
  by_cases hm : g = "male"
  · subst hm
    norm_num
  · rw [show (some g == some "male") = false by simp [hm]]
    rw [if_neg (by simp), if_neg hm]

/-- Witness for C1 at the specification's worked example: weight 80, height
180, age 30, male, Sedentary. -/
theorem tdee_matches_spec_witness :
    get_tdee ⟨some 80, some 180, some 30, some "male", some "Sedentary",
      some 75, some 30⟩
      = pyRound (bmrSpec 80 180 30 "male" * activityFactorSpec (some "Sedentary")) :=
  tdee_matches_spec _ 80 180 30 "male" rfl (by norm_num) rfl (by norm_num)
    rfl (by norm_num) rfl (by decide)

/-- Claim C2: for every profile whose biometrics are complete (so `get_tdee`
is nonzero), `get_calorie_target` returns
`max(round(tdee − daily_deficit), 1200)`: the reported calorie target is
never below 1200 kcal/day, however large the computed deficit.  (`tdee` and
`daily_deficit` are already integers, so the `round` is the identity.) -/
theorem calorie_target_floor (obj : UserObj) (today : ℤ)
    (h : get_tdee obj ≠ 0) :
    get_calorie_target obj today
        = max (get_tdee obj - get_daily_deficit obj today) 1200
      ∧ 1200 ≤ get_calorie_target obj today := by
  unfold get_calorie_target
  rw [if_neg h, pyRound_int]
  exact ⟨rfl, le_max_right _ _⟩

/-- Evaluation of `get_tdee` at the worked example profile (weight 80,
height 180, age 30, male, Sedentary, aimed weight 75, goal in 30 days):
BMR = 800 + 1125 − 150 + 5 = 1780, TDEE = 1780 × 1.2 = 2136. -/
theorem tdee_example_eval :
    get_tdee ⟨some 80, some 180, some 30, some "male", some "Sedentary",
      some 75, some 30⟩ = 2136 := by
  unfold get_tdee
  norm_num [truthyQ, truthyStr, activity_factors_get]
  rw [if_neg (by decide : ¬("male" = ""))]
  rw [show (2136 : ℚ) = ((2136 : ℤ) : ℚ) by norm_num]
  exact pyRound_int 2136

/-- Witness for C2 at the worked example profile (TDEE 2376 ≠ 0). -/
theorem calorie_target_floor_witness :
    get_calorie_target ⟨some 80, some 180, some 30, some "male",
        some "Sedentary", some 75, some 30⟩ 0
        = max (get_tdee ⟨some 80, some 180, some 30, some "male",
            some "Sedentary", some 75, some 30⟩
          - get_daily_deficit ⟨some 80, some 180, some 30, some "male",
            some "Sedentary", some 75, some 30⟩ 0) 1200
      ∧ 1200 ≤ get_calorie_target ⟨some 80, some 180, some 30, some "male",
          some "Sedentary", some 75, some 30⟩ 0 :=
  calorie_target_floor _ 0 (by rw [tdee_example_eval]; norm_num)

/-- Claim C3: the calculator never raises on missing profile data.  If any
of weight, height, age, gender is absent, `get_tdee` returns 0 and
`get_calorie_target` returns 0; if any of weight, aimed weight, aimed date
is absent, `get_daily_deficit` returns 0 (sentinel convention). -/
theorem missing_data_sentinels (obj : UserObj) (today : ℤ) :
    ((obj.weight = none ∨ obj.height = none ∨ obj.age = none
        ∨ obj.gender = none) →
      get_tdee obj = 0 ∧ get_calorie_target obj today = 0)
    ∧ ((obj.weight = none ∨ obj.aimed_weight = none ∨ obj.aimed_date = none) →
      get_daily_deficit obj today = 0) := by
  constructor
  · intro h
    have ht : get_tdee obj = 0 := by
      unfold get_tdee
      rcases h with h | h | h | h <;> rw [h] <;> simp [truthyQ, truthyStr]
    refine ⟨ht, ?_⟩
    unfold get_calorie_target
    rw [if_pos ht]
  · intro h
    unfold get_daily_deficit
    rcases h with h | h | h <;> rw [h] <;> simp [truthyQ]

/-- Witness for C3 at the blank profile: all sentinel zeros. -/
theorem missing_data_sentinels_witness :
    get_tdee ⟨none, none, none, none, none, none, none⟩ = 0
    ∧ get_calorie_target ⟨none, none, none, none, none, none, none⟩ 0 = 0
    ∧ get_daily_deficit ⟨none, none, none, none, none, none, none⟩ 0 = 0 :=
  ⟨((missing_data_sentinels ⟨none, none, none, none, none, none, none⟩ 0).1
      (Or.inl rfl)).1,
   ((missing_data_sentinels ⟨none, none, none, none, none, none, none⟩ 0).1
      (Or.inl rfl)).2,
   (missing_data_sentinels ⟨none, none, none, none, none, none, none⟩ 0).2
      (Or.inl rfl)⟩

/-- Claim C4: two distinct day clamps, never merged.  With weight, aimed
weight and aimed date all supplied, the daily-deficit denominator is
`max(aimed_date − today, 1)` (never zero or negative) while the standalone
`days_left` output is `max(aimed_date − today, 0)`; whenever the aimed date
is today or in the past, `days_left` is reported as 0 while the deficit is
still divided by 1. -/
theorem day_clamps_distinct (obj : UserObj) (w aw : ℚ) (dt : ℤ)
    (hw : obj.weight = some w) (hw0 : w ≠ 0)
    (haw : obj.aimed_weight = some aw) (haw0 : aw ≠ 0)
    (hd : obj.aimed_date = some dt) : ∀ td : ℤ,
    get_daily_deficit obj td
        = pyRound ((w - aw) * 7700 / ((max (dt - td) 1 : ℤ) : ℚ))
    ∧ get_days_left obj td = max (dt - td) 0
    ∧ (dt ≤ td →
        get_days_left obj td = 0
        ∧ get_daily_deficit obj td = pyRound ((w - aw) * 7700)) := by
  intro td
  have hdef : get_daily_deficit obj td
      = pyRound ((w - aw) * 7700 / ((max (dt - td) 1 : ℤ) : ℚ)) := by
    unfold get_daily_deficit
    rw [hw, haw, hd]
    have hc : (truthyQ (some w) && truthyQ (some aw)
        && (some dt).isSome) = true := by
      simp [truthyQ, hw0, haw0]
    rw [hc]
    simp
  have hdl : get_days_left obj td = max (dt - td) 0 := by
    unfold get_days_left
    rw [hd]
  refine ⟨hdef, hdl, fun hpast => ?_⟩
  have h0 : max (dt - td) 0 = 0 := max_eq_right (by omega)
  have h1 : max (dt - td) 1 = 1 := max_eq_right (by omega)
  refine ⟨by rw [hdl, h0], ?_⟩
  rw [hdef, h1]
  norm_num

/-- Witness for C4: worked example profile with the aimed date equal to
today: `days_left` is 0 and the deficit is `round((80 − 75) × 7700 / 1)`. -/
theorem day_clamps_distinct_witness :
    get_days_left ⟨some 80, some 180, some 30, some "male", some "Sedentary",
        some 75, some 5⟩ 5 = 0
    ∧ get_daily_deficit ⟨some 80, some 180, some 30, some "male",
        some "Sedentary", some 75, some 5⟩ 5
      = pyRound ((80 - 75) * 7700) :=
  (day_clamps_distinct ⟨some 80, some 180, some 30, some "male",
      some "Sedentary", some 75, some 5⟩ 80 75 5 rfl (by norm_num) rfl
      (by norm_num) rfl 5).2.2 (by omega)

/-! ## Nutrient field mapping

Two implementations exist in the repository:
`SpoonacularService._extract_nutrition_data`
(food/services/spoonacular_service.py lines 97-254) and the module-level
`extract_nutrition_data` helper (food/views.py lines 155-191).  Provider
JSON scalar values are modelled by `PyVal`; Python's `float(...)` builtin by
`pyFloat` (on plain decimal string literals; exponent forms and `inf`/`nan`
do not occur in the inputs considered). -/

/-- A JSON scalar as Python sees it: int, float, string or null. -/
inductive PyVal where
  | vInt : ℤ → PyVal
  | vFloat : ℚ → PyVal
  | vStr : String → PyVal
  | vNone : PyVal

/-- The whitespace characters recognised by Python's `str.strip`/`str.split`
and by the regex class `\s` (ASCII range). -/
def isPyWs (c : Char) : Bool :=
  c == ' ' || c == '\t' || c == '\n' || c == '\r' || c == '\x0b' || c == '\x0c'

/-- Value of a digit string, most significant first. -/
def digitsVal (l : List Char) : ℕ :=
  l.foldl (fun acc c => 10 * acc + (c.toNat - '0'.toNat)) 0

/-- Python `float(s)` on a plain decimal string literal: optional
surrounding whitespace, optional sign, digits with an optional fractional
part.  `none` models `ValueError`. -/
def parsePyFloat (s : String) : Option ℚ :=
  let t := ((s.data.dropWhile (fun c => isPyWs c)).reverse.dropWhile
      (fun c => isPyWs c)).reverse
  let signBody : ℚ × List Char :=
    match t with
    | '+' :: rest => (1, rest)
    | '-' :: rest => (-1, rest)
    | _ => (1, t)
  let intPart := signBody.2.takeWhile Char.isDigit
  let rest := signBody.2.dropWhile Char.isDigit
  match rest with
  | [] => if intPart.isEmpty then none else some (signBody.1 * digitsVal intPart)
  | '.' :: frac =>
    if frac.all Char.isDigit && !(intPart.isEmpty && frac.isEmpty) then
      some (signBody.1 * ((digitsVal intPart : ℚ)
        + (digitsVal frac : ℚ) / 10 ^ frac.length))
    else none
  | _ => none

/-- Python `float(v)`: succeeds on ints, floats and numeric strings; raises
`ValueError` on non-numeric strings and `TypeError` on `None`. -/
def pyFloat : PyVal → Except String ℚ
  | .vInt n => .ok (n : ℚ)
  | .vFloat q => .ok q
  | .vStr s =>
    match parsePyFloat s with
    | some q => .ok q
    | none => .error "ValueError: could not convert string to float"
  | .vNone => .error "TypeError: float() argument cannot be None"

/-- Python truthiness of a JSON scalar (`0`, `0.0`, `""`, `None` falsy). -/
def pyTruthy : PyVal → Bool
  | .vInt n => n != 0
  | .vFloat q => q != 0
  | .vStr s => s != ""
  | .vNone => false

/-- One `{name, amount}` pair from a provider's `nutrients` array. -/
structure RawEntry where
  name : String
  amount : PyVal

/-- `hasPre p l`: `p` is an initial run of `l`. -/
def hasPre : List Char → List Char → Bool
  | [], _ => true
  | _ :: _, [] => false
  | p :: ps, c :: cs => p == c && hasPre ps cs

/-- `isSubList pat l`: `pat` occurs contiguously inside `l` (Python's
`pat in l` on strings). -/
def isSubList (pat : List Char) : List Char → Bool
  | [] => pat.isEmpty
  | c :: cs => hasPre pat (c :: cs) || isSubList pat cs

/-- Python `pat in s` for strings. -/
def substrIn (pat s : String) : Bool := isSubList pat.data s.data

/-- Python `s.lower()` (ASCII). -/
def lowerStr (s : String) : String := String.mk (s.data.map Char.toLower)

/-- Python `round(x, 2)`: round half to even at two decimal places. -/
def round2 (q : ℚ) : ℚ := (pyRound (q * 100) : ℚ) / 100

theorem round2_int (n : ℤ) : round2 ((n : ℤ) : ℚ) = ((n : ℤ) : ℚ) := by
  unfold round2
  rw [show ((n : ℚ) * 100) = (((n * 100 : ℤ)) : ℚ) by push_cast; ring,
    pyRound_int]
  push_cast
  rw [mul_div_assoc]
  norm_num

theorem round2_zero : round2 0 = 0 := by
  have h := round2_int 0
  simpa using h

/-- The canonical nutrient record accumulated by
`SpoonacularService._extract_nutrition_data` (macros, vitamins, minerals;
`food_name` and `servings` come from provider metadata, not from the
nutrient mapping loop, and are not modelled). -/
structure NutritionData where
  calories : ℚ
  protein : ℚ
  carbohydrates : ℚ
  fats : ℚ
  fiber : ℚ
  sugar : ℚ
  saturated_fat : ℚ
  trans_fat : ℚ
  cholesterol : ℚ
  sodium : ℚ
  vitamin_a : ℚ
  vitamin_c : ℚ
  vitamin_d : ℚ
  vitamin_e : ℚ
  vitamin_k : ℚ
  thiamin : ℚ
  riboflavin : ℚ
  niacin : ℚ
  vitamin_b6 : ℚ
  folate : ℚ
  vitamin_b12 : ℚ
  calcium : ℚ
  iron : ℚ
  magnesium : ℚ
  phosphorus : ℚ
  potassium : ℚ
  zinc : ℚ
  copper : ℚ
  manganese : ℚ
  selenium : ℚ

/-- All fields initialised to 0.0, as at the top of
`_extract_nutrition_data`. -/
def NutritionData.zero : NutritionData :=
  ⟨0, 0, 0, 0, 0, 0, 0, 0, 0, 0, 0, 0, 0, 0, 0, 0, 0, 0, 0, 0, 0, 0, 0, 0,
   0, 0, 0, 0, 0, 0⟩

/-- The `if/elif` classification chain of `_extract_nutrition_data`
(food/services/spoonacular_service.py lines 157-223), applied to one entry
with already lower-cased `name` and already coerced `amount`.  The source
tests `'vitamin a' in name` twice in one condition; the duplicate disjunct
is dropped here as it is logically idempotent. -/
def classifyUpdate (r : NutritionData) (name : String) (amount : ℚ) :
    NutritionData :=
  if substrIn "calorie" name || substrIn "energy" name then
    { r with calories := amount }
  else if substrIn "protein" name then { r with protein := amount }
  else if substrIn "carbohydrate" name || substrIn "carb" name then
    (if !(substrIn "net" name) && !(substrIn "fiber" name) then
      { r with carbohydrates := amount }
    else r)
  else if substrIn "fat" name then
    (if substrIn "saturated" name then { r with saturated_fat := amount }
     else if substrIn "trans" name then { r with trans_fat := amount }
     else if !(substrIn "monounsaturated" name)
        && !(substrIn "polyunsaturated" name) then { r with fats := amount }
     else r)
  else if substrIn "fiber" name || substrIn "fibre" name then
    { r with fiber := amount }
  else if substrIn "sugar" name then { r with sugar := amount }
  else if substrIn "cholesterol" name then { r with cholesterol := amount }
  else if substrIn "sodium" name then { r with sodium := amount }
  else if substrIn "vitamin a" name then { r with vitamin_a := amount }
  else if substrIn "vitamin c" name then { r with vitamin_c := amount }
  else if substrIn "vitamin d" name then { r with vitamin_d := amount }
  else if substrIn "vitamin e" name then { r with vitamin_e := amount }
  else if substrIn "vitamin k" name then { r with vitamin_k := amount }
  else if substrIn "thiamin" name || substrIn "vitamin b1" name then
    { r with thiamin := amount }
  else if substrIn "riboflavin" name || substrIn "vitamin b2" name then
    { r with riboflavin := amount }
  else if substrIn "niacin" name || substrIn "vitamin b3" name then
    { r with niacin := amount }
  else if substrIn "vitamin b6" name then { r with vitamin_b6 := amount }
  else if substrIn "folate" name || substrIn "folic acid" name
      || substrIn "vitamin b9" name then { r with folate := amount }
  else if substrIn "vitamin b12" name || substrIn "cobalamin" name then
    { r with vitamin_b12 := amount }
  else if substrIn "calcium" name then { r with calcium := amount }
  else if substrIn "iron" name then { r with iron := amount }
  else if substrIn "magnesium" name then { r with magnesium := amount }
  else if substrIn "phosphorus" name then { r with phosphorus := amount }
  else if substrIn "potassium" name then { r with potassium := amount }
  else if substrIn "zinc" name then { r with zinc := amount }
  else if substrIn "copper" name then { r with copper := amount }
  else if substrIn "manganese" name then { r with manganese := amount }
  else if substrIn "selenium" name then { r with selenium := amount }
  else r

/-- The `for nutrient in nutrients` loop, each iteration lower-casing the
name and coercing the amount via `float(nutrient.get('amount', 0))`;
a coercion failure aborts the whole loop (the surrounding `try`). -/
def extractLoop : List RawEntry → NutritionData → Except String NutritionData
  | [], r => .ok r
  | e :: rest, r =>
    match pyFloat e.amount with
    | .error m => .error m
    | .ok amount => extractLoop rest (classifyUpdate r (lowerStr e.name) amount)

/-- The final `round(..., 2)` pass over every accumulated value. -/
def roundRecord (r : NutritionData) : NutritionData :=
  ⟨round2 r.calories, round2 r.protein, round2 r.carbohydrates,
   round2 r.fats, round2 r.fiber, round2 r.sugar, round2 r.saturated_fat,
   round2 r.trans_fat, round2 r.cholesterol, round2 r.sodium,
   round2 r.vitamin_a, round2 r.vitamin_c, round2 r.vitamin_d,
   round2 r.vitamin_e, round2 r.vitamin_k, round2 r.thiamin,
   round2 r.riboflavin, round2 r.niacin, round2 r.vitamin_b6,
   round2 r.folate, round2 r.vitamin_b12, round2 r.calcium, round2 r.iron,
   round2 r.magnesium, round2 r.phosphorus, round2 r.potassium,
   round2 r.zinc, round2 r.copper, round2 r.manganese, round2 r.selenium⟩

/-- `SpoonacularService._extract_nutrition_data` restricted to its nutrient
mapping loop: zero-initialise, fold the entries, round everything to two
decimals; a `ValueError`/`TypeError` inside the loop is re-raised as
`ValueError("Failed to parse nutrition data from API response: ...")`. -/
def extract_nutrition_data_service (nutrients : List RawEntry) :
    Except String NutritionData :=
  match extractLoop nutrients NutritionData.zero with
  | .ok r => .ok (roundRecord r)
  | .error m =>
    .error ("Failed to parse nutrition data from API response: " ++ m)

theorem round2_eval_250 : round2 (250 : ℚ) = 250 := by
  rw [show (250 : ℚ) = ((250 : ℤ) : ℚ) by norm_num, round2_int]

theorem round2_eval_5 : round2 (5 : ℚ) = 5 := by
  rw [show (5 : ℚ) = ((5 : ℤ) : ℚ) by norm_num, round2_int]

theorem round2_eval_2 : round2 (2 : ℚ) = 2 := by
  rw [show (2 : ℚ) = ((2 : ℤ) : ℚ) by norm_num, round2_int]

theorem round2_eval_10 : round2 (10 : ℚ) = 10 := by
  rw [show (10 : ℚ) = ((10 : ℤ) : ℚ) by norm_num, round2_int]

/-- Claim C5: extraction applied to Calories 250, Protein "5",
Saturated Fat 2, Total Fat 10 yields calories 250.0, protein 5.0,
saturated fat 2.0, fat 10.0 and every other canonical field 0.0 (the
generic "fat" rule does not clobber the saturated-fat field); and
extraction applied to the empty entry sequence yields the all-zero record
and never raises. -/
theorem nutrient_extract_examples :
    extract_nutrition_data_service
        [⟨"Calories", PyVal.vInt 250⟩, ⟨"Protein", PyVal.vStr "5"⟩,
         ⟨"Saturated Fat", PyVal.vInt 2⟩, ⟨"Total Fat", PyVal.vInt 10⟩]
      = Except.ok { NutritionData.zero with
          calories := 250, protein := 5, saturated_fat := 2, fats := 10 }
    ∧ extract_nutrition_data_service [] = Except.ok NutritionData.zero := by
  constructor
  · simp +decide [extract_nutrition_data_service, extractLoop, pyFloat,
      parsePyFloat, classifyUpdate, digitsVal, isPyWs, roundRecord,
      NutritionData.zero, round2_eval_250, round2_eval_5, round2_eval_2,
      round2_eval_10, round2_zero]
  · simp [extract_nutrition_data_service, extractLoop, roundRecord,
      NutritionData.zero, round2_zero]

/-- Claim C7 (code evaluation): an entry named "Vitamin B12" is captured by
the earlier `'thiamin' in name or 'vitamin b1' in name` rule — because
`"vitamin b1"` is a substring of `"vitamin b12"` — so its amount lands in
the thiamin (B1) field and the B12 field stays 0, while "Cobalamin" does
reach the B12 field.  The dedicated `'vitamin b12'` branch in the source is
unreachable for any name containing "vitamin b12". -/
theorem vitamin_b12_misrouted :
    extract_nutrition_data_service [⟨"Vitamin B12", PyVal.vInt 5⟩]
      = Except.ok { NutritionData.zero with thiamin := 5 }
    ∧ extract_nutrition_data_service [⟨"Cobalamin", PyVal.vInt 5⟩]
      = Except.ok { NutritionData.zero with vitamin_b12 := 5 } := by
  constructor <;>
    simp +decide [extract_nutrition_data_service, extractLoop, pyFloat,
      classifyUpdate, roundRecord, NutritionData.zero, round2_eval_5,
      round2_zero]

/-! ### The views-module mapper (`food/views.py`, `extract_nutrition_data`) -/

/-- The amount coercion of the views-module mapper:
`float(amount or 0)`. -/
def viewsCoerce (v : PyVal) : Except String ℚ :=
  pyFloat (if pyTruthy v then v else PyVal.vInt 0)

/-- Python dict insertion (overwrite on an existing key). -/
def dictInsert : List (String × ℚ) → String → ℚ → List (String × ℚ)
  | [], k, v => [(k, v)]
  | (k', v') :: rest, k, v =>
    if k' == k then (k, v) :: rest else (k', v') :: dictInsert rest k v

/-- Python `dict.get(k, 0)`. -/
def dictGet (m : List (String × ℚ)) (k : String) : ℚ :=
  ((m.find? (fun p => p.1 == k)).map Prod.snd).getD 0

/-- The `for nutrient in nutrients` loop of the views-module mapper:
`nutrient_map[name.lower()] = float(amount or 0)`.  A non-numeric truthy
string still raises `ValueError` (uncaught there). -/
def viewsLoop : List RawEntry → List (String × ℚ) →
    Except String (List (String × ℚ))
  | [], m => .ok m
  | e :: rest, m =>
    match viewsCoerce e.amount with
    | .error msg => .error msg
    | .ok v => viewsLoop rest (dictInsert m (lowerStr e.name) v)

/-- The fixed record the views-module mapper reads back out of the map
(food/views.py lines 171-191). -/
structure ViewsNutrition where
  calories : ℚ
  protein : ℚ
  fat : ℚ
  saturated_fat : ℚ
  trans_fat : ℚ
  carbohydrates : ℚ
  fiber : ℚ
  sugar : ℚ
  cholesterol : ℚ
  sodium : ℚ
  calcium : ℚ
  iron : ℚ
  potassium : ℚ
  zinc : ℚ
  vitaminA : ℚ
  vitaminC : ℚ
  vitaminD : ℚ
  vitaminE : ℚ
  vitaminK : ℚ

/-- `extract_nutrition_data` from food/views.py lines 155-191. -/
def extract_nutrition_data_views (nutrients : List RawEntry) :
    Except String ViewsNutrition :=
  match viewsLoop nutrients [] with
  | .error m => .error m
  | .ok m =>
    .ok ⟨dictGet m "calories", dictGet m "protein", dictGet m "fat",
      dictGet m "saturated fat", dictGet m "trans fat",
      dictGet m "carbohydrates", dictGet m "fiber", dictGet m "sugar",
      dictGet m "cholesterol", dictGet m "sodium", dictGet m "calcium",
      dictGet m "iron", dictGet m "potassium", dictGet m "zinc",
      dictGet m "vitamin a", dictGet m "vitamin c", dictGet m "vitamin d",
      dictGet m "vitamin e", dictGet m "vitamin k"⟩

/-- Claim C6 counterexample: the claimed coercion policy fails on the code.
The service mapper raises (error, not 0) on a null amount; the views-module
mapper raises on a non-numeric string amount; and a negative amount is
passed through as a negative value, not coerced to a non-negative one. -/
theorem amount_coercion_counterexample :
    (extract_nutrition_data_service [⟨"Calories", PyVal.vNone⟩]).toOption
        = none
    ∧ (extract_nutrition_data_views [⟨"Calories", PyVal.vStr "abc"⟩]).toOption
        = none
    ∧ (extract_nutrition_data_views [⟨"Calories", PyVal.vInt (-7)⟩]).toOption.map
        (fun r => r.calories) = some (-7) := by
  refine ⟨by simp [extract_nutrition_data_service, extractLoop, pyFloat,
    Except.toOption], ?_, ?_⟩
  · simp +decide [extract_nutrition_data_views, viewsLoop, viewsCoerce,
      pyTruthy, pyFloat, parsePyFloat, isPyWs, Except.toOption]
  · simp +decide [extract_nutrition_data_views, viewsLoop, viewsCoerce,
      pyTruthy, pyFloat, dictInsert, dictGet]

/-- Claim C6 amended: in the views-module mapper an amount that is an int,
a float, null (or any falsy value), or a nonempty string parsing as a
decimal is coerced to a decimal without raising, null becoming 0; the
coercion does not clamp to non-negative, and the service mapper instead
raises on a null amount (and both raise on a non-numeric string). -/
theorem amount_coercion_amended :
    (∀ (name : String) (rest : List RawEntry) (r : NutritionData),
      extractLoop (⟨name, PyVal.vNone⟩ :: rest) r
        = Except.error "TypeError: float() argument cannot be None")
    ∧ viewsCoerce PyVal.vNone = Except.ok 0
    ∧ (∀ n : ℤ, viewsCoerce (PyVal.vInt n) = Except.ok ((n : ℤ) : ℚ))
    ∧ (∀ q : ℚ, viewsCoerce (PyVal.vFloat q) = Except.ok q)
    ∧ (∀ (s : String) (q : ℚ), s ≠ "" → parsePyFloat s = some q →
        viewsCoerce (PyVal.vStr s) = Except.ok q) := by
  refine ⟨fun name rest r => rfl, rfl, ?_, ?_, ?_⟩
  · intro n
    by_cases h : n = 0
    · subst h; simp [viewsCoerce, pyTruthy, pyFloat]
    · simp [viewsCoerce, pyTruthy, pyFloat, h]
  · intro q
    by_cases h : q = 0
    · subst h; simp [viewsCoerce, pyTruthy, pyFloat]
    · simp [viewsCoerce, pyTruthy, pyFloat, h]
  · intro s q hs hq
    simp [viewsCoerce, pyTruthy, pyFloat, hs, hq]

/-- Witness for (the amended) C6: the numeric string "5" is coerced to 5. -/
theorem amount_coercion_amended_witness :
    viewsCoerce (PyVal.vStr "5") = Except.ok 5 :=
  amount_coercion_amended.2.2.2.2 "5" 5 (by decide)
    (by simp +decide [parsePyFloat, digitsVal, isPyWs])

/-! ## Ingredient line parser (`food/services/ingredient_parser.py`)

`_normalize_line`, `normalize_text` and `_split_by_delimiters` are modelled
character-exactly over `List Char`, with `String` wrappers at the API.
`' '.join(line.split())` is `pyCollapse`; the regex `^[\d\.\-\s]+` removal
is `dropWhile isEnumChar`; the regex `[•\-\*]\s*` global removal is
`removeBullets`; `str.strip()` is `stripWs`. -/

/-- `str.strip()`: drop leading and trailing whitespace. -/
def stripWs (l : List Char) : List Char :=
  ((l.dropWhile (fun c => isPyWs c)).reverse.dropWhile (fun c => isPyWs c)).reverse

/-- Accumulator pass of Python `str.split()` (split on whitespace runs,
dropping empty pieces); the accumulator holds the current word reversed. -/
def wordsAux : List Char → List Char → List (List Char)
  | [], acc => if acc.isEmpty then [] else [acc.reverse]
  | c :: rest, acc =>
    if isPyWs c then
      (if acc.isEmpty then wordsAux rest [] else acc.reverse :: wordsAux rest [])
    else wordsAux rest (c :: acc)

/-- Python `line.split()`. -/
def pyWords (l : List Char) : List (List Char) := wordsAux l []

/-- Python `' '.join(words)`. -/
def joinWords : List (List Char) → List Char
  | [] => []
  | [w] => w
  | w :: rest => w ++ ' ' :: joinWords rest

/-- Python `' '.join(line.split())`: collapse internal whitespace. -/
def pyCollapse (l : List Char) : List Char := joinWords (pyWords l)

/-- Character class of the regex `^[\d\.\-\s]+` (leading enumeration). -/
def isEnumChar (c : Char) : Bool := c.isDigit || c == '.' || c == '-' || isPyWs c

/-- Bullet glyphs of the regex `[•\-\*]`. -/
def isBulletChar (c : Char) : Bool := c == '•' || c == '-' || c == '*'

/-- Left-to-right scan implementing `re.sub(r'[•\-\*]\s*', '', line)`:
each bullet character is removed together with the whitespace run that
immediately follows it (the flag records whether such a run is being
consumed). -/
def rbAux : Bool → List Char → List Char
  | _, [] => []
  | skipping, c :: rest =>
    if isBulletChar c then rbAux true rest
    else if skipping && isPyWs c then rbAux true rest
    else c :: rbAux false rest

/-- `re.sub(r'[•\-\*]\s*', '', line)`. -/
def removeBullets (l : List Char) : List Char := rbAux false l

/-- The cleaning pipeline of `_normalize_line` after its length guards:
strip the leading enumeration run, remove bullets, then `strip()`. -/
def normalizeCore (line : List Char) : List Char :=
  stripWs (removeBullets ((pyCollapse line).dropWhile (fun c => isEnumChar c)))

/-- `IngredientParser._normalize_line` (ingredient_parser.py lines 67-99):
collapse whitespace; reject when empty or under 3 stripped characters;
reject when under 5 characters; clean via `normalizeCore`; reject when the
cleaned line is under 3 characters. -/
def normalizeLineL (line : List Char) : Option (List Char) :=
  if (pyCollapse line).isEmpty || (stripWs (pyCollapse line)).length < 3 then
    none
  else if (pyCollapse line).length < 5 then none
  else if (normalizeCore line).length < 3 then none
  else some (normalizeCore line)

/-- Python `text.split(d)` for a single-character separator `d` (keeps
empty pieces). -/
def splitCharL (d : Char) : List Char → List (List Char)
  | [] => [[]]
  | c :: rest =>
    match splitCharL d rest with
    | [] => [[c]]
    | x :: xs => if c == d then [] :: x :: xs else (c :: x) :: xs

/-- The delimiter priority list of `_split_by_delimiters`. -/
def delimiters : List Char := [',', ';', '|', '\n', '•', '-']

/-- The `for delimiter in delimiters` loop of `_split_by_delimiters`: take
the first delimiter occurring in the text whose split yields more than one
normalized line; otherwise fall through to treating the whole text as one
candidate line. -/
def splitByDelimsGo (text : List Char) : List Char → List (List Char)
  | [] =>
    match normalizeLineL text with
    | some x => [x]
    | none => []
  | d :: ds =>
    if text.contains d then
      (if 1 < ((splitCharL d text).filterMap normalizeLineL).length then
        (splitCharL d text).filterMap normalizeLineL
      else splitByDelimsGo text ds)
    else splitByDelimsGo text ds

/-- `IngredientParser._split_by_delimiters` (ingredient_parser.py lines
101-125). -/
def splitByDelimitersL (text : List Char) : List (List Char) :=
  splitByDelimsGo text delimiters

/-- `IngredientParser.normalize_text` (ingredient_parser.py lines 37-65). -/
def normalizeTextL (raw : List Char) : List (List Char) :=
  if raw.isEmpty || (stripWs raw).isEmpty then []
  else
    let ingredient_lines := (splitCharL '\n' raw).filterMap normalizeLineL
    if ingredient_lines.length < 2 then splitByDelimitersL raw
    else ingredient_lines

/-- `normalize_text` at the `String` API. -/
def normalize_text (s : String) : List String :=
  (normalizeTextL s.data).map String.mk

/-- `'\n'.join(lines)` on character lists. -/
def joinLines : List (List Char) → List Char
  | [] => []
  | [x] => x
  | x :: rest => x ++ '\n' :: joinLines rest

/-- `'\n'.join(lines)` at the `String` API (as in
`format_for_spoonacular`). -/
def joinNewline (lines : List String) : String :=
  String.mk (joinLines (lines.map String.data))

/-- Claim C8 counterexample: `normalize("Flour, Sugar, Eggs")` returns 2
lines, not 3 — "Eggs" (4 characters) is discarded by the minimum-length-5
filter inside `_normalize_line`. -/
theorem delimiter_fallback_counterexample :
    normalize_text "Flour, Sugar, Eggs" = ["Flour", "Sugar"]
    ∧ (normalize_text "Flour, Sugar, Eggs").length ≠ 3 := by
  constructor
  · decide
  · decide

/-- Claim C8 amended: when newline-splitting yields fewer than 2 surviving
lines, `normalize_text` falls back to `_split_by_delimiters` on the
original raw text (priority order ',', ';', '|', '\n', '•', '-', first
delimiter present in the text that yields more than one non-empty
normalized line); `normalize("Flour, Sugar, Eggs")` however yields the two
lines "Flour" and "Sugar", "Eggs" being dropped by the minimum-length-5
pre-clean filter. -/
theorem delimiter_fallback :
    (∀ raw : String, raw.data ≠ [] → stripWs raw.data ≠ [] →
      ((splitCharL '\n' raw.data).filterMap normalizeLineL).length < 2 →
      normalize_text raw = (splitByDelimitersL raw.data).map String.mk)
    ∧ normalize_text "Flour, Sugar, Eggs" = ["Flour", "Sugar"] := by
  constructor
  · intro raw h0 h1 h2
    simp only [normalize_text, normalizeTextL]
    rw [if_neg (by simp [List.isEmpty_iff, h0, h1]), if_pos h2]
  · decide

/-- Witness for (the amended) C8 at "Flour, Sugar, Eggs": a single
surviving newline-split line, so the delimiter fallback is taken. -/
theorem delimiter_fallback_witness :
    normalize_text "Flour, Sugar, Eggs"
      = (splitByDelimitersL "Flour, Sugar, Eggs".data).map String.mk :=
  delimiter_fallback.1 "Flour, Sugar, Eggs" (by decide) (by decide) (by decide)

/-- Claim C9 counterexample: `normalize` is not idempotent.  On
`"1. Eggs\n2. Hams\n3. Oats"` it returns the three lines "Eggs", "Hams",
"Oats"; re-running it on the newline-join of that output collapses them
into the single line "Eggs Hams Oats" (each 4-character line is dropped by
the minimum-length-5 filter on the second pass), losing "Eggs" as an
ingredient line. -/
theorem normalize_not_idempotent :
    normalize_text "1. Eggs\n2. Hams\n3. Oats" = ["Eggs", "Hams", "Oats"]
    ∧ normalize_text (joinNewline (normalize_text "1. Eggs\n2. Hams\n3. Oats"))
        = ["Eggs Hams Oats"]
    ∧ "Eggs" ∈ normalize_text "1. Eggs\n2. Hams\n3. Oats"
    ∧ "Eggs" ∉ normalize_text (joinNewline
        (normalize_text "1. Eggs\n2. Hams\n3. Oats")) := by
  exact ⟨by decide, by decide, by decide, by decide⟩

/-! Structural lemmas about the parser's character-level operations, used
for the conditional idempotence theorem. -/

theorem mem_of_mem_dropWhile {p : Char → Bool} {a : Char} :
    ∀ {l : List Char}, a ∈ l.dropWhile p → a ∈ l := by
  intro l
  induction l with
  | nil => simp [List.dropWhile]
  | cons c rest ih =>
    intro h
    rw [List.dropWhile_cons] at h
    by_cases hp : p c = true
    · simp only [hp, if_true] at h
      exact List.mem_cons_of_mem c (ih h)
    · simp only [hp, if_false] at h
      exact h

theorem dropWhile_head_not {p : Char → Bool} {c : Char} {cs : List Char} :
    ∀ {l : List Char}, l.dropWhile p = c :: cs → p c = false := by
  intro l
  induction l with
  | nil => simp [List.dropWhile]
  | cons d rest ih =>
    intro h
    rw [List.dropWhile_cons] at h
    by_cases hp : p d = true
    · simp only [hp, if_true] at h
      exact ih h
    · simp only [hp, if_false] at h
      cases h
      simpa using hp

theorem dropWhile_append_last {p : Char → Bool} {d : Char} (hd : p d = false) :
    ∀ xs : List Char, (xs ++ [d]).dropWhile p = xs.dropWhile p ++ [d] := by
  intro xs
  induction xs with
  | nil => simp [List.dropWhile, hd]
  | cons c rest ih =>
    rw [List.cons_append, List.dropWhile_cons, List.dropWhile_cons]
    by_cases hp : p c = true
    · simp only [hp, if_true]
      exact ih
    · simp [hp]

theorem stripWs_cons_of_not_ws {c : Char} (hc : isPyWs c = false)
    (l : List Char) :
    stripWs (c :: l) = c :: ((l.reverse.dropWhile (fun x => isPyWs x)).reverse) := by
  unfold stripWs
  rw [List.dropWhile_cons]
  simp only [hc, if_false, Bool.false_eq_true, List.reverse_cons,
    dropWhile_append_last hc, List.reverse_append, List.reverse_cons,
    List.reverse_nil, List.nil_append, List.singleton_append]

theorem stripWs_cons_ne_nil {c : Char} (hc : isPyWs c = false)
    (l : List Char) : stripWs (c :: l) ≠ [] := by
  rw [stripWs_cons_of_not_ws hc l]
  simp

theorem stripWs_head_not_ws {l : List Char} {c : Char} {cs : List Char}
    (h : stripWs l = c :: cs) : isPyWs c = false := by
  rcases hm : l.dropWhile (fun x => isPyWs x) with _ | ⟨d, ds⟩
  · unfold stripWs at h
    rw [hm] at h
    simp at h
  · have hd : isPyWs d = false := dropWhile_head_not hm
    unfold stripWs at h
    rw [hm, List.reverse_cons, dropWhile_append_last hd,
      List.reverse_append] at h
    simp only [List.reverse_cons, List.reverse_nil, List.nil_append,
      List.singleton_append, List.cons.injEq] at h
    rw [← h.1]
    exact hd

theorem mem_of_mem_stripWs {a : Char} {l : List Char} (h : a ∈ stripWs l) :
    a ∈ l := by
  unfold stripWs at h
  rw [List.mem_reverse] at h
  have h2 := mem_of_mem_dropWhile h
  rw [List.mem_reverse] at h2
  exact mem_of_mem_dropWhile h2

theorem mem_of_mem_rbAux {a : Char} :
    ∀ (b : Bool) (l : List Char), a ∈ rbAux b l → a ∈ l := by
  intro b l
  induction l generalizing b with
  | nil => simp [rbAux]
  | cons c rest ih =>
    intro h
    rw [rbAux] at h
    by_cases h1 : isBulletChar c = true
    · simp only [h1, if_true] at h
      exact List.mem_cons_of_mem c (ih true h)
    · simp only [h1, Bool.false_eq_true, if_false] at h
      by_cases h2 : (b && isPyWs c) = true
      · simp only [h2, if_true] at h
        exact List.mem_cons_of_mem c (ih true h)
      · simp only [h2, Bool.false_eq_true, if_false, List.mem_cons] at h
        rcases h with h | h
        · exact h ▸ List.mem_cons_self c rest
        · exact List.mem_cons_of_mem c (ih false h)

theorem mem_of_mem_removeBullets {a : Char} {l : List Char}
    (h : a ∈ removeBullets l) : a ∈ l :=
  mem_of_mem_rbAux false l h

theorem wordsAux_chars {a : Char} :
    ∀ (l acc : List Char), (∀ x ∈ acc, isPyWs x = false) →
    ∀ w ∈ wordsAux l acc, a ∈ w → isPyWs a = false := by
  intro l
  induction l with
  | nil =>
    intro acc hacc w hw ha
    rw [wordsAux] at hw
    by_cases he : acc.isEmpty = true
    · simp [he] at hw
    · simp only [he, Bool.false_eq_true, if_false, List.mem_singleton] at hw
      subst hw
      exact hacc a (List.mem_reverse.mp ha)
  | cons c rest ih =>
    intro acc hacc w hw ha
    rw [wordsAux] at hw
    by_cases h1 : isPyWs c = true
    · simp only [h1, if_true] at hw
      by_cases he : acc.isEmpty = true
      · simp only [he, if_true] at hw
        exact ih [] (by simp) w hw ha
      · simp only [he, Bool.false_eq_true, if_false, List.mem_cons] at hw
        rcases hw with hw | hw
        · subst hw
          exact hacc a (List.mem_reverse.mp ha)
        · exact ih [] (by simp) w hw ha
    · simp only [h1, Bool.false_eq_true, if_false] at hw
      refine ih (c :: acc) ?_ w hw ha
      intro x hx
      rcases List.mem_cons.mp hx with hx | hx
      · subst hx
        simpa using h1
      · exact hacc x hx

theorem joinWords_chars {a : Char} :
    ∀ ws : List (List Char), a ∈ joinWords ws →
    a = ' ' ∨ ∃ w ∈ ws, a ∈ w := by
  intro ws
  induction ws with
  | nil => simp [joinWords]
  | cons w rest ih =>
    intro h
    rcases rest with _ | ⟨w2, rest2⟩
    · exact Or.inr ⟨w, by simp, by simpa [joinWords] using h⟩
    · rw [show joinWords (w :: w2 :: rest2) = w ++ ' ' :: joinWords (w2 :: rest2)
        from rfl] at h
      rcases List.mem_append.mp h with h | h
      · exact Or.inr ⟨w, by simp, h⟩
      · rcases List.mem_cons.mp h with h | h
        · exact Or.inl h
        · rcases ih h with h | ⟨w', hw', ha'⟩
          · exact Or.inl h
          · exact Or.inr ⟨w', List.mem_cons_of_mem _ hw', ha'⟩

theorem pyCollapse_chars {a : Char} {l : List Char} (h : a ∈ pyCollapse l) :
    isPyWs a = false ∨ a = ' ' := by
  rcases joinWords_chars (pyWords l) h with h | ⟨w, hw, ha⟩
  · exact Or.inr h
  · exact Or.inl (wordsAux_chars l [] (by simp) w hw ha)

theorem newline_not_mem_pyCollapse (l : List Char) : '\n' ∉ pyCollapse l := by
  intro h
  rcases pyCollapse_chars h with h | h
  · simp [isPyWs] at h
  · simp at h

theorem normalizeLineL_some_eq {l o : List Char}
    (h : normalizeLineL l = some o) : o = normalizeCore l ∧ 3 ≤ o.length := by
  unfold normalizeLineL at h
  split_ifs at h with h1 h2 h3
  have h' := Option.some.inj h
  subst h'
  exact ⟨rfl, by omega⟩

theorem normalizeLineL_some_head {l o : List Char}
    (h : normalizeLineL l = some o) :
    ∃ c cs, o = c :: cs ∧ isPyWs c = false := by
  obtain ⟨ho, hlen⟩ := normalizeLineL_some_eq h
  rcases hoc : o with _ | ⟨c, cs⟩
  · rw [hoc] at hlen
    simp at hlen
  · refine ⟨c, cs, rfl, ?_⟩
    rw [hoc] at ho
    unfold normalizeCore at ho
    exact stripWs_head_not_ws ho.symm

theorem normalizeLineL_some_mem {l o : List Char}
    (h : normalizeLineL l = some o) : ∀ a ∈ o, a ∈ pyCollapse l := by
  obtain ⟨ho, -⟩ := normalizeLineL_some_eq h
  intro a ha
  rw [ho] at ha
  unfold normalizeCore at ha
  exact mem_of_mem_dropWhile (mem_of_mem_removeBullets (mem_of_mem_stripWs ha))

theorem newline_not_mem_of_fixed {o : List Char}
    (h : normalizeLineL o = some o) : '\n' ∉ o := fun hmem =>
  newline_not_mem_pyCollapse o (normalizeLineL_some_mem h '\n' hmem)

theorem splitCharL_ne_nil (d : Char) : ∀ l : List Char, splitCharL d l ≠ [] := by
  intro l
  induction l with
  | nil => simp [splitCharL]
  | cons c rest ih =>
    rw [splitCharL]
    rcases hr : splitCharL d rest with _ | ⟨x, xs⟩
    · simp
    · by_cases h : (c == d) = true <;> simp [h]

theorem splitCharL_not_mem {d : Char} :
    ∀ {l : List Char}, d ∉ l → splitCharL d l = [l] := by
  intro l
  induction l with
  | nil => simp [splitCharL]
  | cons c rest ih =>
    intro h
    rw [splitCharL]
    have hd : d ∉ rest := fun hm => h (List.mem_cons_of_mem c hm)
    have hcd : (c == d) = false := by
      simp only [beq_eq_false_iff_ne, ne_eq]
      intro he
      subst he
      exact h (List.mem_cons_self c rest)
    rw [ih hd]
    simp [hcd]

theorem splitCharL_append {d : Char} {rest : List Char} :
    ∀ {x : List Char}, d ∉ x →
    splitCharL d (x ++ d :: rest) = x :: splitCharL d rest := by
  intro x
  induction x with
  | nil =>
    intro _
    simp only [List.nil_append]
    rw [splitCharL]
    rcases hr : splitCharL d rest with _ | ⟨y, ys⟩
    · exact absurd hr (splitCharL_ne_nil d rest)
    · simp [hr]
  | cons c x' ih =>
    intro h
    have hd : d ∉ x' := fun hm => h (List.mem_cons_of_mem c hm)
    have hcd : (c == d) = false := by
      simp only [beq_eq_false_iff_ne, ne_eq]
      intro he
      subst he
      exact h (List.mem_cons_self c x')
    rw [List.cons_append, splitCharL, ih hd]
    simp [hcd]

theorem joinLines_cons_cons (x y : List Char) (rest : List (List Char)) :
    joinLines (x :: y :: rest) = x ++ '\n' :: joinLines (y :: rest) := rfl

theorem splitCharL_joinLines :
    ∀ out : List (List Char), out ≠ [] → (∀ x ∈ out, '\n' ∉ x) →
    splitCharL '\n' (joinLines out) = out := by
  intro out
  induction out with
  | nil => intro h; exact absurd rfl h
  | cons x rest ih =>
    intro _ hmem
    rcases rest with _ | ⟨y, rest2⟩
    · rw [show joinLines [x] = x from rfl]
      exact splitCharL_not_mem (hmem x (by simp))
    · rw [joinLines_cons_cons, splitCharL_append (hmem x (by simp)),
        ih (by simp) (fun z hz => hmem z (List.mem_cons_of_mem x hz))]

theorem filterMap_normalizeLineL_fixed :
    ∀ out : List (List Char), (∀ x ∈ out, normalizeLineL x = some x) →
    out.filterMap normalizeLineL = out := by
  intro out
  induction out with
  | nil => intro _; simp
  | cons x rest ih =>
    intro h
    rw [List.filterMap_cons, h x (by simp),
      ih (fun z hz => h z (List.mem_cons_of_mem x hz))]

theorem normalizeTextL_joinLines_fixed (out : List (List Char))
    (h2 : 2 ≤ out.length) (hfix : ∀ x ∈ out, normalizeLineL x = some x) :
    normalizeTextL (joinLines out) = out := by
  rcases out with _ | ⟨x1, _ | ⟨x2, rest⟩⟩
  · simp at h2
  · simp at h2
  · obtain ⟨c, cs, hx1, hc⟩ := normalizeLineL_some_head (hfix x1 (by simp))
    have hform : joinLines (x1 :: x2 :: rest)
        = c :: (cs ++ '\n' :: joinLines (x2 :: rest)) := by
      rw [joinLines_cons_cons, hx1, List.cons_append]
    have hnonempty : (joinLines (x1 :: x2 :: rest)).isEmpty = false := by
      rw [hform]
      rfl
    have hstrip : (stripWs (joinLines (x1 :: x2 :: rest))).isEmpty = false := by
      rw [hform]
      have hne := stripWs_cons_ne_nil hc (cs ++ '\n' :: joinLines (x2 :: rest))
      simpa [List.isEmpty_iff] using hne
    have hsplit : splitCharL '\n' (joinLines (x1 :: x2 :: rest))
        = x1 :: x2 :: rest :=
      splitCharL_joinLines _ (by simp)
        (fun x hx => newline_not_mem_of_fixed (hfix x hx))
    simp only [normalizeTextL]
    rw [hnonempty, hstrip, hsplit, filterMap_normalizeLineL_fixed _ hfix]
    rw [if_neg (by simp)]
    rw [if_neg (by simp)]

/-- Claim C9 amended: `normalize` is idempotent exactly on outputs whose
lines individually survive re-normalization: whenever `normalize(t)` has at
least 2 lines and each output line is a fixed point of `_normalize_line`,
re-running `normalize` on the newline-join of the output returns the output
unchanged.  In general idempotence fails: output lines shorter than 5
characters (or starting with digits after cleaning) are dropped or merged
by a second pass, losing ingredient lines. -/
theorem normalize_idempotent_on_fixed_output (t : String)
    (h2 : 2 ≤ (normalize_text t).length)
    (hfix : ∀ o ∈ normalize_text t, normalizeLineL o.data = some o.data) :
    normalize_text (joinNewline (normalize_text t)) = normalize_text t := by
  have hfix' : ∀ x ∈ normalizeTextL t.data, normalizeLineL x = some x := by
    intro x hx
    exact hfix (String.mk x) (List.mem_map_of_mem String.mk hx)
  have hlen : 2 ≤ (normalizeTextL t.data).length := by
    have he : (normalize_text t).length = (normalizeTextL t.data).length := by
      simp [normalize_text]
    omega
  have hjoin : joinNewline (normalize_text t)
      = String.mk (joinLines (normalizeTextL t.data)) := by
    simp only [joinNewline, normalize_text, List.map_map]
    rw [show (String.data ∘ String.mk) = id from rfl, List.map_id]
  rw [hjoin]
  show (normalizeTextL (joinLines (normalizeTextL t.data))).map String.mk
      = normalize_text t
  rw [normalizeTextL_joinLines_fixed _ hlen hfix']
  rfl

/-- Witness for (the amended) C9: a two-line text whose output lines are
fixed points; re-normalizing the joined output is the identity. -/
theorem normalize_idempotent_on_fixed_output_witness :
    normalize_text (joinNewline (normalize_text "Onion powder\nGarlic sauce"))
      = normalize_text "Onion powder\nGarlic sauce" :=
  normalize_idempotent_on_fixed_output "Onion powder\nGarlic sauce"
    (by decide) (by decide)

/-! ## Meal type resolution (`food/views.py`) -/

/-- `str.strip()` at the `String` API. -/
def stripStr (s : String) : String := String.mk (stripWs s.data)

/-- `MEAL_TYPE_MAPPING.get(key, dflt)` (food/views.py lines 30-36). -/
def mealTypeMappingGet (k : String) (dflt : String) : String :=
  match k with
  | "breakfast" => "Breakfast"
  | "lunch" => "Lunch"
  | "snacks" => "Snacks"
  | "snack" => "Snacks"
  | "dinner" => "Dinner"
  | _ => dflt

/-- Modelled from the spec: the canonical category store behind
`MealType.objects` is a database table (an external collaborator, not in
src/); §4.3 gives its contents as the four categories Breakfast, Lunch,
Snacks, Dinner (here with ids 1-4). -/
def canonicalMealTypes : List (ℤ × String) :=
  [(1, "Breakfast"), (2, "Lunch"), (3, "Snacks"), (4, "Dinner")]

/-- `resolve_meal_type` (food/views.py lines 80-110) over a category store:
name resolution first (synonym map, then case-insensitive exact lookup),
falling back to lookup by a truthy id; an unresolvable id or name yields
`None`, never an error. -/
def resolve_meal_type (store : List (ℤ × String)) (meal_type_id : Option ℤ)
    (meal_type_name : Option String) : Option (ℤ × String) :=
  let byName : Option (ℤ × String) :=
    match meal_type_name with
    | some nm =>
      if nm != "" then
        store.find? (fun e =>
          lowerStr e.2 == lowerStr (mealTypeMappingGet (stripStr (lowerStr nm)) nm))
      else none
    | none => none
  match byName with
  | some mt => some mt
  | none =>
    match meal_type_id with
    | some i => if i != 0 then store.find? (fun e => e.1 == i) else none
    | none => none

/-- `MEAL_TYPE_GROUPING_MAP.get(key)` (food/views.py lines 38-44). -/
def groupingMapGet (k : String) : Option String :=
  match k with
  | "breakfast" => some "breakfast"
  | "lunch" => some "lunch"
  | "snacks" => some "snacks"
  | "snack" => some "snacks"
  | "dinner" => some "dinner"
  | _ => none

/-- The per-item branch of `group_food_items_by_meal_type` (food/views.py
lines 130-150): the bucket key an item with the given `meal_type_name` is
appended to (exact match against the grouping map first, then substring
containment, then the Snacks default; a missing or blank name also goes to
Snacks). -/
def classify_meal_type (meal_type_name : Option String) : String :=
  let nm : Option String :=
    match meal_type_name with
    | some s => if s != "" then some (stripStr s) else none
    | none => none
  match nm with
  | some s =>
    if s != "" then
      match groupingMapGet (lowerStr s) with
      | some k => k
      | none =>
        if substrIn "breakfast" (lowerStr s) then "breakfast"
        else if substrIn "lunch" (lowerStr s) then "lunch"
        else if substrIn "snack" (lowerStr s) then "snacks"
        else if substrIn "dinner" (lowerStr s) then "dinner"
        else "snacks"
    else "snacks"
  | none => "snacks"

/-- Claim C10: meal-type resolution maps the name "snack" to the Snacks
category via the synonym map; an unknown id with no name returns `None`
(not an error); and a supplied meal-type string matching no canonical name
even by substring, such as "Brunch", defaults to the Snacks bucket (in the
grouping view, which is where the substring/default fallback lives). -/
theorem meal_type_resolution_examples :
    resolve_meal_type canonicalMealTypes none (some "snack") = some (3, "Snacks")
    ∧ resolve_meal_type canonicalMealTypes (some 5) none = none
    ∧ classify_meal_type (some "Brunch") = "snacks" := by
  exact ⟨by decide, by decide, by decide⟩
